import Mathlib

/-!
Verification of the process-supervision core of `llama_server_gui.py`
(llama.cpp Server GUI).

The development shallowly embeds the supervision logic of the GUI:
  * `pyStrip` / `pySplit` model Python's `str.strip()` and `str.split()`;
  * `build_cmd` models the command-vector construction in
    `LlamaServerGUI.start_server` (lines 432-454);
  * `start_server` models the validation / already-running checks of
    `LlamaServerGUI.start_server` (lines 405-430);
  * `stop_server` models the not-running guard and shutdown initiation of
    `LlamaServerGUI.stop_server` (lines 487-514);
  * `check_server_stopped` models the shutdown-escalation timer callback
    (lines 516-532);
  * `check_server_health` models the health-monitor timer callback
    (lines 552-615);
  * `ServerOutputReader.run` / `ServerOutputReader.read_remaining_output`
    model the output-reader thread (lines 45-89);
  * `quit_application` / `closeEvent` model the application-exit paths
    (lines 812-852);
  * `load_config` models configuration loading (lines 787-796).

Timers are modelled as pure recursive functions over an abstract tick index:
the process's observable exit status is an oracle `Nat → Option Int`
(`poll()` at each tick), and the loop body is translated line by line from
the Python callback.
-/

namespace LSG

/-- Models Python `str.strip()`: remove whitespace characters from both ends
of the string. -/
def pyStrip (s : String) : String :=
  ⟨((s.data.dropWhile Char.isWhitespace).reverse.dropWhile Char.isWhitespace).reverse⟩

/-- Accumulator pass for `pySplit`: `acc` holds the characters of the token
currently being read, in reverse. -/
def pySplitGo : List Char → List Char → List String
  | [], acc => if acc.isEmpty then [] else [⟨acc.reverse⟩]
  | c :: cs, acc =>
    if c.isWhitespace then
      (if acc.isEmpty then [] else [⟨acc.reverse⟩]) ++ pySplitGo cs []
    else
      pySplitGo cs (c :: acc)

/-- Models Python `str.split()` with no separator argument: split on runs of
whitespace, discarding empty tokens (so an empty or all-whitespace string
splits to the empty list). -/
def pySplit (s : String) : List String := pySplitGo s.data []

/-- The settings record handed to `start_server`, one field per GUI widget
read in `start_server` / `get_current_settings`.  `ngl` may be `-1`, hence
`Int`; the remaining numeric fields are spin boxes with positive ranges. -/
structure LaunchSpec where
  binary_path : String
  model_path : String
  host : String
  port : Nat
  context : Nat
  ngl : Int
  threads : Nat
  batch : Nat
  additional_args : String
deriving Repr, DecidableEq

/-- The command vector built in `start_server` lines 432-454: the binary
followed by flag/value pairs in the source's fixed order, then the
whitespace-split extra arguments.  The two paths are the stripped text-field
values, exactly as in the source (`binary_path = ...text().strip()`). -/
def build_cmd (s : LaunchSpec) : List String :=
  [pyStrip s.binary_path,
   "-m", pyStrip s.model_path,
   "--host", s.host,
   "--port", toString s.port,
   "-c", toString s.context,
   "-ngl", toString s.ngl,
   "-t", toString s.threads,
   "-b", toString s.batch] ++
  (if pyStrip s.additional_args ≠ "" then pySplit (pyStrip s.additional_args) else [])

/-- Status of the supervised child process as observable through
`self.server_process`: no handle (`None`), a live process
(`poll() is None`), or an exited process (`poll()` returns a code). -/
inductive ProcStatus where
  | noProcess : ProcStatus
  | alive : ProcStatus
  | exitedWith (code : Int) : ProcStatus
deriving Repr, DecidableEq

/-- The running test used throughout the source:
`self.server_process is not None and self.server_process.poll() is None`. -/
def ProcStatus.isRunning : ProcStatus → Bool
  | .alive => true
  | _ => false

/-- Outcome of a `start_server` call: a validation failure (one of the
`QMessageBox.warning` early returns), the already-running rejection, or a
successful spawn carrying the command vector passed to `subprocess.Popen`. -/
inductive StartResult where
  | ValidationError (msg : String) : StartResult
  | AlreadyRunningError : StartResult
  | Started (cmd : List String) : StartResult
deriving Repr, DecidableEq

/-- `LlamaServerGUI.start_server` lines 405-465, up to the spawn: the guard
chain in source order (binary empty, binary missing, model empty, model
missing, already running), then the command build.  `fileExists` models
`os.path.exists`. -/
def start_server (fileExists : String → Bool) (p : ProcStatus) (s : LaunchSpec) :
    StartResult :=
  let binary_path := pyStrip s.binary_path
  let model_path := pyStrip s.model_path
  if binary_path = "" then
    .ValidationError "Please select a server binary"
  else if ¬ fileExists binary_path then
    .ValidationError ("Server binary not found: " ++ binary_path)
  else if model_path = "" then
    .ValidationError "Please select a model file"
  else if ¬ fileExists model_path then
    .ValidationError ("Model file not found: " ++ model_path)
  else if p.isRunning then
    .AlreadyRunningError
  else
    .Started (build_cmd s)

/-- Observable side effects of the supervision code: signals sent to the
child, output-reader control, verdict events appended to the log, and
UI-level effects. -/
inductive Action where
  | terminate : Action
  | kill : Action
  | stopReader : Action
  | waitReader : Action
  | startEscalator : Action
  | hideWindow : Action
  | quitApp : Action
deriving Repr, DecidableEq

/-- Outcome of a `stop_server` call: the not-running rejection or entry into
the Stopping phase. -/
inductive StopResult where
  | NotRunningError : StopResult
  | stopping : StopResult
deriving Repr, DecidableEq

/-- `LlamaServerGUI.stop_server` lines 487-514: the guard
`not self.server_process or self.server_process.poll() is not None` rejects
with a warning and touches nothing else; otherwise the reader is signalled to
stop, `terminate()` is sent and the escalation timer is started. -/
def stop_server (p : ProcStatus) : StopResult × List Action :=
  if ¬ p.isRunning then
    (.NotRunningError, [])
  else
    (.stopping, [.stopReader, .terminate, .startEscalator])

/-- The two verdicts of the shutdown escalation: `cleanup_after_stop` with
"Server stopped successfully!" versus "Server killed (forced)". -/
inductive StopVerdict where
  | StoppedGracefully : StopVerdict
  | StoppedForcibly : StopVerdict
deriving Repr, DecidableEq

/-- `LlamaServerGUI.check_server_stopped` lines 516-532, iterated over the
200ms timer ticks.  `exited tick` models `poll() is not None` at that tick;
`attempts` is `self.stop_attempts` on entry to the callback (0 on the first
tick).  If the process is seen exited, the timer stops and the graceful
verdict is produced; otherwise the counter is incremented and, once it
reaches 25, `kill()` is sent and the forced verdict is produced.  The
returned `Nat` is the tick on which the timer stopped. -/
def check_server_stopped (exited : Nat → Bool) (tick attempts : Nat) :
    StopVerdict × Nat :=
  if exited tick then
    (.StoppedGracefully, tick)
  else if attempts + 1 ≥ 25 then
    (.StoppedForcibly, tick)
  else
    check_server_stopped exited (tick + 1) (attempts + 1)
termination_by 25 - attempts
decreasing_by omega

/-- Verdict of one health-monitor run: silent self-stop (handle released by a
manual stop), the crash verdict with the observed exit code, or the stability
verdict. -/
inductive HealthOutcome where
  | noVerdict : HealthOutcome
  | CrashedWithCode (code : Int) : HealthOutcome
  | Stable : HealthOutcome
deriving Repr, DecidableEq

/-- `LlamaServerGUI.check_server_health` lines 552-615, iterated over the
500ms timer ticks.  `handle tick` models `self.server_process is not None`;
`poll tick` models `self.server_process.poll()`.  `attempts` is
`self.health_check_attempts` on entry (0 on the first tick).  No handle →
stop silently; `poll` returns a code → crash verdict and immediate stop;
still running → increment the counter and declare `Stable` once it reaches
6.  The returned `Nat` is the tick on which the timer stopped. -/
def check_server_health (handle : Nat → Bool) (poll : Nat → Option Int)
    (tick attempts : Nat) : HealthOutcome × Nat :=
  if handle tick = false then
    (.noVerdict, tick)
  else
    match poll tick with
    | some code => (.CrashedWithCode code, tick)
    | none =>
      if attempts + 1 ≥ 6 then
        (.Stable, tick)
      else
        check_server_health handle poll (tick + 1) (attempts + 1)
termination_by 6 - attempts
decreasing_by omega

/-- Splitting the empty string on whitespace yields no tokens, matching
Python, where an all-whitespace string splits to `[]`. -/
theorem pySplit_empty : pySplit "" = [] := rfl

example : pyStrip "  a b " = "a b" := by decide

example : pySplit " --numa  --mlock " = ["--numa", "--mlock"] := by decide

/-- Claim C4: the argument vector (the command minus the executable in front)
starts with the model-path pair, then host, port, context length, GPU layers,
threads and batch size in the source's fixed order, followed by the
whitespace-split extra-argument tokens in their original order. -/
theorem build_cmd_order (s : LaunchSpec) :
    List.drop 1 (build_cmd s) =
      ["-m", pyStrip s.model_path,
       "--host", s.host,
       "--port", toString s.port,
       "-c", toString s.context,
       "-ngl", toString s.ngl,
       "-t", toString s.threads,
       "-b", toString s.batch] ++ pySplit (pyStrip s.additional_args) := by
  by_cases h : pyStrip s.additional_args = ""
  · simp [build_cmd, h, pySplit_empty]
  · simp [build_cmd, h]

/-- Along a run of the escalator started at `(1, 0)`, the attempt counter on
entry to tick `tick` is `tick - 1`.  If the first tick on which the process
is seen exited is `t ≤ 25`, every continuation of the run from a tick
`tick ≤ t` ends with the graceful verdict on tick `t`. -/
theorem check_server_stopped_graceful_aux (exited : Nat → Bool) (t : Nat)
    (ht : t ≤ 25) (hex : exited t = true) :
    ∀ d tick, 1 ≤ tick → tick + d = t →
      (∀ s, tick ≤ s → s < t → exited s = false) →
      check_server_stopped exited tick (tick - 1) = (.StoppedGracefully, t) := by
  intro d
  induction d with
  | zero =>
    intro tick h1 he _
    have htt : tick = t := by omega
    subst htt
    rw [check_server_stopped]
    simp [hex]
  | succ d ih =>
    intro tick h1 he hpre
    have hf : exited tick = false := hpre tick le_rfl (by omega)
    have hb : ¬ (tick - 1 + 1 ≥ 25) := by omega
    rw [check_server_stopped]
    simp only [hf, if_neg hb, Bool.false_eq_true, if_false]
    have harg : tick - 1 + 1 = tick + 1 - 1 := by omega
    rw [harg]
    exact ih (tick + 1) (by omega) (by omega)
      (fun s hs hst => hpre s (by omega) hst)

/-- If the process is never seen exited on ticks `tick..25`, the escalator
run from tick `tick` (attempt counter `tick - 1`) ends with the forced
verdict on tick 25. -/
theorem check_server_stopped_forced_aux (exited : Nat → Bool)
    (hall : ∀ t, 1 ≤ t → t ≤ 25 → exited t = false) :
    ∀ d tick, 1 ≤ tick → tick + d = 25 →
      check_server_stopped exited tick (tick - 1) = (.StoppedForcibly, 25) := by
  intro d
  induction d with
  | zero =>
    intro tick h1 he
    have htt : tick = 25 := by omega
    subst htt
    rw [check_server_stopped]
    simp [hall 25 (by omega) (by omega)]
  | succ d ih =>
    intro tick h1 he
    have hf : exited tick = false := hall tick h1 (by omega)
    have hb : ¬ (tick - 1 + 1 ≥ 25) := by omega
    rw [check_server_stopped]
    simp only [hf, if_neg hb, Bool.false_eq_true, if_false]
    have harg : tick - 1 + 1 = tick + 1 - 1 := by omega
    rw [harg]
    exact ih (tick + 1) (by omega) (by omega)

/-- Claim C1: a `Stop()` on a running process yields exactly one of the two
verdicts.  The run of `check_server_stopped` (started by `stop_server` after
`terminate()`, first tick 1, `stop_attempts = 0`) is a total function
producing a single verdict — never both, never neither; if the process is
observed exited on one of the 25 ticks, the verdict is graceful and polling
stops within the window; if all 25 ticks see it still running, `kill()` is
issued and the forced verdict is produced on tick 25. -/
theorem stop_verdict_dichotomy (exited : Nat → Bool) :
    ((check_server_stopped exited 1 0).1 = .StoppedGracefully ∨
      (check_server_stopped exited 1 0).1 = .StoppedForcibly) ∧
    ((∃ t, 1 ≤ t ∧ t ≤ 25 ∧ exited t = true) →
      (check_server_stopped exited 1 0).1 = .StoppedGracefully ∧
      (check_server_stopped exited 1 0).2 ≤ 25) ∧
    ((∀ t, 1 ≤ t → t ≤ 25 → exited t = false) →
      check_server_stopped exited 1 0 = (.StoppedForcibly, 25)) := by
  refine ⟨?_, ?_, ?_⟩
  · cases h : (check_server_stopped exited 1 0).1 with
    | StoppedGracefully => exact Or.inl rfl
    | StoppedForcibly => exact Or.inr rfl
  · intro hex
    have hp : ∃ t, 1 ≤ t ∧ t ≤ 25 ∧ exited t = true := hex
    classical
    have hfind := Nat.find_spec hp
    obtain ⟨h1, h25, hext⟩ := hfind
    have hmin : ∀ s, 1 ≤ s → s < Nat.find hp → exited s = false := by
      intro s hs1 hslt
      have := Nat.find_min hp hslt
      simp only [not_and, Bool.not_eq_true] at this
      exact this hs1 (by omega)
    have := check_server_stopped_graceful_aux exited (Nat.find hp) h25 hext
      (Nat.find hp - 1) 1 le_rfl (by omega) (fun s hs hst => hmin s hs hst)
    simp only [show (1 : Nat) - 1 = 0 from rfl] at this
    rw [this]
    exact ⟨rfl, h25⟩
  · intro hall
    have := check_server_stopped_forced_aux exited hall 24 1 le_rfl (by omega)
    simpa using this

/-- Witness for C1 at concrete inputs: a process first seen exited on tick 3
yields the graceful verdict; a process never seen exited within the window
yields the forced verdict on tick 25. -/
theorem stop_verdict_dichotomy_witness :
    (check_server_stopped (fun t => decide (3 ≤ t)) 1 0).1 = .StoppedGracefully ∧
    check_server_stopped (fun _ => false) 1 0 = (.StoppedForcibly, 25) := by
  constructor
  · exact ((stop_verdict_dichotomy (fun t => decide (3 ≤ t))).2.1
      ⟨3, by decide, by decide, by decide⟩).1
  · exact (stop_verdict_dichotomy (fun _ => false)).2.2 (fun t _ _ => rfl)

/-- Along a health-monitor run started at `(1, 0)`, the attempt counter on
entry to tick `tick` is `tick - 1`.  If the handle is held throughout, the
process is first seen exited (with code `c`) on tick `t ≤ 6`, then every
continuation of the run from a tick `tick ≤ t` ends with the crash verdict
on tick `t`. -/
theorem check_server_health_crash_aux (handle : Nat → Bool)
    (poll : Nat → Option Int) (c : Int) (t : Nat) (ht : t ≤ 6)
    (hh : handle t = true) (hp : poll t = some c) :
    ∀ d tick, 1 ≤ tick → tick + d = t →
      (∀ s, tick ≤ s → s < t → handle s = true ∧ poll s = none) →
      check_server_health handle poll tick (tick - 1) = (.CrashedWithCode c, t) := by
  intro d
  induction d with
  | zero =>
    intro tick h1 he _
    have htt : tick = t := by omega
    subst htt
    rw [check_server_health]
    simp [hh, hp]
  | succ d ih =>
    intro tick h1 he hpre
    obtain ⟨hhs, hps⟩ := hpre tick le_rfl (by omega)
    have hb : ¬ (tick - 1 + 1 ≥ 6) := by omega
    rw [check_server_health]
    simp only [hhs, hps, if_neg hb, Bool.true_eq_false, if_false]
    have harg : tick - 1 + 1 = tick + 1 - 1 := by omega
    rw [harg]
    exact ih (tick + 1) (by omega) (by omega)
      (fun s hs hst => hpre s (by omega) hst)

/-- Claim C2: if the monitored process is observed exited with code `c` on a
tick `t` of the observation window while the handle is still held (and was
healthy on all earlier ticks), the health-monitor run started at
`(health_check_attempts = 0)` produces exactly the crash verdict carrying
`c` and self-stops on that very tick `t`, regardless of how many of the 6
attempts remain — in particular no `Stable` verdict is ever produced in that
run. -/
theorem health_monitor_crash (handle : Nat → Bool) (poll : Nat → Option Int)
    (c : Int) (t : Nat) (h1 : 1 ≤ t) (ht : t ≤ 6)
    (hpre : ∀ s, 1 ≤ s → s < t → handle s = true ∧ poll s = none)
    (hh : handle t = true) (hp : poll t = some c) :
    check_server_health handle poll 1 0 = (.CrashedWithCode c, t) := by
  have := check_server_health_crash_aux handle poll c t ht hh hp
    (t - 1) 1 le_rfl (by omega) (fun s hs hst => hpre s hs hst)
  simpa using this

/-- Witness for C2: a process whose handle is held throughout and whose
`poll()` first reports exit code 1 on tick 2 yields the crash verdict with
code 1 on tick 2. -/
theorem health_monitor_crash_witness :
    check_server_health (fun _ => true)
      (fun t => if 2 ≤ t then some 1 else none) 1 0 = (.CrashedWithCode 1, 2) := by
  refine health_monitor_crash (fun _ => true)
    (fun t => if 2 ≤ t then some 1 else none) 1 2 (by omega) (by omega)
    ?_ rfl rfl
  intro s hs1 hs2
  have hse : s = 1 := by omega
  subst hse
  exact ⟨rfl, rfl⟩

/-- If the handle is held and the process is seen still running on every tick
`tick..6`, the health-monitor run from tick `tick` (attempt counter
`tick - 1`) ends with the `Stable` verdict on tick 6. -/
theorem check_server_health_stable_aux (handle : Nat → Bool)
    (poll : Nat → Option Int)
    (hall : ∀ s, 1 ≤ s → s ≤ 6 → handle s = true ∧ poll s = none) :
    ∀ d tick, 1 ≤ tick → tick + d = 6 →
      check_server_health handle poll tick (tick - 1) = (.Stable, 6) := by
  intro d
  induction d with
  | zero =>
    intro tick h1 he
    have htt : tick = 6 := by omega
    subst htt
    obtain ⟨hh6, hp6⟩ := hall 6 (by omega) (by omega)
    rw [check_server_health]
    simp [hh6, hp6]
  | succ d ih =>
    intro tick h1 he
    obtain ⟨hhs, hps⟩ := hall tick h1 (by omega)
    have hb : ¬ (tick - 1 + 1 ≥ 6) := by omega
    rw [check_server_health]
    simp only [hhs, hps, if_neg hb, Bool.true_eq_false, if_false]
    have harg : tick - 1 + 1 = tick + 1 - 1 := by omega
    rw [harg]
    exact ih (tick + 1) (by omega) (by omega)

/-- Claim C3: if the handle is held and the process is still running on every
one of the 6 ticks of the observation window, the health-monitor run started
at `(health_check_attempts = 0)` produces exactly one `Stable` verdict and
self-stops on tick 6 (the tick on which the attempt counter reaches the
bound). -/
theorem health_monitor_stable (handle : Nat → Bool) (poll : Nat → Option Int)
    (hall : ∀ s, 1 ≤ s → s ≤ 6 → handle s = true ∧ poll s = none) :
    check_server_health handle poll 1 0 = (.Stable, 6) := by
  have := check_server_health_stable_aux handle poll hall 5 1 le_rfl (by omega)
  simpa using this

/-- Witness for C3: a process that never exits and whose handle is always
held yields the `Stable` verdict on tick 6. -/
theorem health_monitor_stable_witness :
    check_server_health (fun _ => true) (fun _ => none) 1 0 = (.Stable, 6) :=
  health_monitor_stable (fun _ => true) (fun _ => none)
    (fun _ _ _ => ⟨rfl, rfl⟩)

/-- A concrete settings record with an empty binary-path field, used to show
that the already-running rejection is not the first guard in
`start_server`. -/
def emptyBinarySpec : LaunchSpec :=
  { binary_path := ""
    model_path := "model.gguf"
    host := "127.0.0.1"
    port := 8080
    context := 2048
    ngl := 33
    threads := 8
    batch := 512
    additional_args := "" }

/-- Counterexample to C5 as stated: with a live process, `start_server` on a
spec whose binary path is empty fails with the validation warning
"Please select a server binary", not with the already-running rejection —
the path-validation guards run before the already-running check. -/
theorem start_while_running_counterexample :
    start_server (fun _ => true) .alive emptyBinarySpec =
      .ValidationError "Please select a server binary" ∧
    start_server (fun _ => true) .alive emptyBinarySpec ≠
      .AlreadyRunningError := by
  constructor
  · rfl
  · decide

/-- Claim C5 (amended): while a live process is held, `start_server` on a
spec that passes the path validation (both stripped paths nonempty and
existing) fails with the already-running rejection, and in no case does it
spawn a new process — the call leaves the held process untouched. -/
theorem start_while_running_rejected (fileExists : String → Bool)
    (s : LaunchSpec)
    (hb : pyStrip s.binary_path ≠ "")
    (hbe : fileExists (pyStrip s.binary_path) = true)
    (hm : pyStrip s.model_path ≠ "")
    (hme : fileExists (pyStrip s.model_path) = true) :
    start_server fileExists .alive s = .AlreadyRunningError ∧
    ∀ cmd, start_server fileExists .alive s ≠ .Started cmd := by
  have hres : start_server fileExists .alive s = .AlreadyRunningError := by
    simp [start_server, hb, hbe, hm, hme, ProcStatus.isRunning]
  exact ⟨hres, fun cmd hc => by rw [hres] at hc; cases hc⟩

/-- Witness for C5 (amended) at a concrete input: a valid spec against an
all-existing filesystem while a live process is held. -/
theorem start_while_running_rejected_witness :
    start_server (fun _ => true) .alive
      { binary_path := "llama-server"
        model_path := "model.gguf"
        host := "127.0.0.1"
        port := 8080
        context := 2048
        ngl := 33
        threads := 8
        batch := 512
        additional_args := "" } = .AlreadyRunningError :=
  (start_while_running_rejected (fun _ => true) _
    (by decide) rfl (by decide) rfl).1

/-- Claim C6: from the Idle state (no process handle), `start_server` on a
spec whose binary or model path does not reference an existing file fails
with a validation warning, never spawns a process, and the reported warning
is the one for the first violated precondition in the source's validation
order (binary empty, binary missing, model empty, model missing). -/
theorem start_invalid_paths (fileExists : String → Bool) (s : LaunchSpec)
    (h : fileExists (pyStrip s.binary_path) = false ∨
         fileExists (pyStrip s.model_path) = false) :
    (∃ msg, start_server fileExists .noProcess s = .ValidationError msg) ∧
    (∀ cmd, start_server fileExists .noProcess s ≠ .Started cmd) ∧
    (pyStrip s.binary_path = "" →
      start_server fileExists .noProcess s =
        .ValidationError "Please select a server binary") ∧
    (pyStrip s.binary_path ≠ "" → fileExists (pyStrip s.binary_path) = false →
      start_server fileExists .noProcess s =
        .ValidationError ("Server binary not found: " ++ pyStrip s.binary_path)) ∧
    (pyStrip s.binary_path ≠ "" → fileExists (pyStrip s.binary_path) = true →
      pyStrip s.model_path = "" →
      start_server fileExists .noProcess s =
        .ValidationError "Please select a model file") ∧
    (pyStrip s.binary_path ≠ "" → fileExists (pyStrip s.binary_path) = true →
      pyStrip s.model_path ≠ "" → fileExists (pyStrip s.model_path) = false →
      start_server fileExists .noProcess s =
        .ValidationError ("Model file not found: " ++ pyStrip s.model_path)) := by
  have e1 : pyStrip s.binary_path = "" →
      start_server fileExists .noProcess s =
        .ValidationError "Please select a server binary" := by
    intro h0
    simp [start_server, h0]
  have e2 : pyStrip s.binary_path ≠ "" →
      fileExists (pyStrip s.binary_path) = false →
      start_server fileExists .noProcess s =
        .ValidationError ("Server binary not found: " ++ pyStrip s.binary_path) := by
    intro h0 h1
    simp [start_server, h0, h1]
  have e3 : pyStrip s.binary_path ≠ "" →
      fileExists (pyStrip s.binary_path) = true →
      pyStrip s.model_path = "" →
      start_server fileExists .noProcess s =
        .ValidationError "Please select a model file" := by
    intro h0 h1 h2
    simp [start_server, h0, h1, h2]
  have e4 : pyStrip s.binary_path ≠ "" →
      fileExists (pyStrip s.binary_path) = true →
      pyStrip s.model_path ≠ "" →
      fileExists (pyStrip s.model_path) = false →
      start_server fileExists .noProcess s =
        .ValidationError ("Model file not found: " ++ pyStrip s.model_path) := by
    intro h0 h1 h2 h3
    simp [start_server, h0, h1, h2, h3]
  have hval : ∃ msg, start_server fileExists .noProcess s = .ValidationError msg := by
    by_cases hb0 : pyStrip s.binary_path = ""
    · exact ⟨_, e1 hb0⟩
    · by_cases hbe : fileExists (pyStrip s.binary_path) = true
      · by_cases hm0 : pyStrip s.model_path = ""
        · exact ⟨_, e3 hb0 hbe hm0⟩
        · have hme : fileExists (pyStrip s.model_path) = false := by
            rcases h with h | h
            · rw [h] at hbe; cases hbe
            · exact h
          exact ⟨_, e4 hb0 hbe hm0 hme⟩
      · exact ⟨_, e2 hb0 (by simpa using hbe)⟩
  refine ⟨hval, ?_, e1, e2, e3, e4⟩
  intro cmd hc
  obtain ⟨msg, hmsg⟩ := hval
  rw [hmsg] at hc
  cases hc

/-- Witness for C6 at a concrete input: from Idle, a spec whose binary path
names a file missing from the filesystem is rejected with the
binary-not-found warning. -/
theorem start_invalid_paths_witness :
    start_server (fun _ => false) .noProcess
      { binary_path := "llama-server"
        model_path := "model.gguf"
        host := "127.0.0.1"
        port := 8080
        context := 2048
        ngl := 33
        threads := 8
        batch := 512
        additional_args := "" } =
      .ValidationError "Server binary not found: llama-server" :=
  (start_invalid_paths (fun _ => false) _ (Or.inl rfl)).2.2.2.1
    (by decide) rfl

/-- Claim C7: `stop_server` called with no process handle (Idle) or with a
process that has already exited (Crashed) is rejected with the not-running
warning; no terminate or kill signal is sent (the action list is empty) and
the process state is untouched. -/
theorem stop_not_running (p : ProcStatus)
    (h : p = .noProcess ∨ ∃ c, p = .exitedWith c) :
    stop_server p = (.NotRunningError, []) := by
  rcases h with h | ⟨c, h⟩ <;> subst h <;> rfl

/-- Witness for C7 at a concrete input: stopping with no process handle. -/
theorem stop_not_running_witness :
    stop_server .noProcess = (.NotRunningError, []) :=
  stop_not_running .noProcess (Or.inl rfl)

/-- One `readline()` call on a buffered stream modelled as the list of its
pending lines: the next line is consumed and, when truthy (nonempty, as in
`if output:`), emitted stripped; at end-of-stream `readline()` returns `""`
and nothing is emitted. -/
def readlineStep : List String → List String × List String
  | [] => ([], [])
  | l :: rest => (if l = "" then [] else [pyStrip l], rest)

/-- The lines emitted when a stream is iterated to end-of-stream:
`for line in stream: if line: emit(line.strip())`. -/
def emitLines (ls : List String) : List String :=
  ls.filterMap (fun l => if l = "" then none else some (pyStrip l))

/-- `ServerOutputReader.read_remaining_output` lines 75-89: after the process
is seen terminated, drain all remaining stdout lines, then all remaining
stderr lines. -/
def ServerOutputReader.read_remaining_output (outs errs : List String) :
    List String :=
  emitLines outs ++ emitLines errs

/-- One observation made by an iteration of the reader loop: either `poll()`
reports the process exited, or `select` reports readability of stdout and/or
stderr. -/
inductive RelayObs where
  | exited : RelayObs
  | ready (rdOut rdErr : Bool) : RelayObs
deriving Repr, DecidableEq

/-- `ServerOutputReader.run` lines 45-73 over an abstract schedule of
per-iteration observations.  Each iteration first re-checks `poll()`: if the
process has exited, all buffered lines of both streams are drained to
end-of-stream and the loop terminates.  Otherwise one line is read from each
stream reported readable and emitted if nonempty.  An exhausted schedule
models a window in which the loop is still running and has emitted nothing
further yet. -/
def ServerOutputReader.run :
    List RelayObs → List String → List String → List String
  | [], _, _ => []
  | .exited :: _, outs, errs =>
    ServerOutputReader.read_remaining_output outs errs
  | .ready ro re :: rest, outs, errs =>
    let so := if ro then readlineStep outs else ([], outs)
    let se := if re then readlineStep errs else ([], errs)
    so.1 ++ se.1 ++ ServerOutputReader.run rest so.2 se.2

/-- Reading one line from a stream preserves the multiset of lines the
stream will ever emit: the head event plus the drain of the remainder equals
the drain of the whole stream. -/
theorem readlineStep_emitLines (ls : List String) :
    (readlineStep ls).1 ++ emitLines (readlineStep ls).2 = emitLines ls := by
  cases ls with
  | nil => rfl
  | cons l rest =>
    by_cases h : l = "" <;> simp [readlineStep, emitLines, h]

/-- Any run of the reader loop whose schedule observes the process exit
emits, up to interleaving order, exactly the lines the two streams hold:
nothing is lost and nothing is duplicated. -/
theorem run_perm_drain (sched : List RelayObs) :
    ∀ outs errs, RelayObs.exited ∈ sched →
      List.Perm (ServerOutputReader.run sched outs errs)
        (ServerOutputReader.read_remaining_output outs errs) := by
  induction sched with
  | nil => intro outs errs h; cases h
  | cons obs rest ih =>
    intro outs errs h
    cases obs with
    | exited => exact List.Perm.refl _
    | ready ro re =>
      have hmem : RelayObs.exited ∈ rest := by
        rcases List.mem_cons.mp h with h0 | h0
        · cases h0
        · exact h0
      set so := if ro then readlineStep outs else ([], outs) with hso
      set se := if re then readlineStep errs else ([], errs) with hse
      have hout : so.1 ++ emitLines so.2 = emitLines outs := by
        rw [hso]
        cases ro <;> simp [readlineStep_emitLines]
      have herr : se.1 ++ emitLines se.2 = emitLines errs := by
        rw [hse]
        cases re <;> simp [readlineStep_emitLines]
      have ihr := ih so.2 se.2 hmem
      have key : ServerOutputReader.run (RelayObs.ready ro re :: rest) outs errs
          = so.1 ++ (se.1 ++ ServerOutputReader.run rest so.2 se.2) := by
        rw [ServerOutputReader.run, List.append_assoc]
      rw [key]
      have step1 : List.Perm
          (so.1 ++ (se.1 ++ ServerOutputReader.run rest so.2 se.2))
          (so.1 ++ (se.1 ++ (emitLines so.2 ++ emitLines se.2))) :=
        List.Perm.append_left _ (List.Perm.append_left _ ihr)
      have step2 : List.Perm
          (se.1 ++ (emitLines so.2 ++ emitLines se.2))
          (emitLines so.2 ++ (se.1 ++ emitLines se.2)) := by
        rw [← List.append_assoc, ← List.append_assoc]
        exact List.Perm.append_right _ List.perm_append_comm
      have step3 : List.Perm
          (so.1 ++ (se.1 ++ (emitLines so.2 ++ emitLines se.2)))
          (so.1 ++ (emitLines so.2 ++ (se.1 ++ emitLines se.2))) :=
        List.Perm.append_left _ step2
      have hfin : so.1 ++ (emitLines so.2 ++ (se.1 ++ emitLines se.2))
          = ServerOutputReader.read_remaining_output outs errs := by
        rw [← List.append_assoc, hout, herr]
        rfl
      have step4 : List.Perm
          (so.1 ++ (emitLines so.2 ++ (se.1 ++ emitLines se.2)))
          (ServerOutputReader.read_remaining_output outs errs) := by
        rw [hfin]
      exact (step1.trans step3).trans step4

/-- Claim C8: over a child that wrote one newline-terminated line to stdout
and one to stderr and then exits, any run of the reader loop that observes
the exit emits each of the two lines intact (modulo the source's
`.strip()` of the trailing newline) and exactly once before terminating,
in some interleaving order. -/
theorem relay_two_lines (sched : List RelayObs)
    (h : RelayObs.exited ∈ sched) :
    List.Perm
      (ServerOutputReader.run sched ["line1\n"] ["line2\n"])
      ["line1", "line2"] := by
  have hperm := run_perm_drain sched ["line1\n"] ["line2\n"] h
  have hdrain : ServerOutputReader.read_remaining_output ["line1\n"] ["line2\n"] =
      ["line1", "line2"] := by decide
  rw [hdrain] at hperm
  exact hperm

/-- Witness for C8 at a concrete schedule: one iteration reads the stdout
line, the next observes the exit and drains the stderr line. -/
theorem relay_two_lines_witness :
    List.Perm
      (ServerOutputReader.run [RelayObs.ready true false, RelayObs.exited]
        ["line1\n"] ["line2\n"])
      ["line1", "line2"] :=
  relay_two_lines [RelayObs.ready true false, RelayObs.exited] (by decide)

/-- `LlamaServerGUI.quit_application` lines 843-852 as its list of side
effects: with a live process, the reader is signalled and joined around an
immediate `kill()`; there is no `terminate()` and the shutdown-escalation
timer is never started. -/
def quit_application (p : ProcStatus) (hasReader : Bool) : List Action :=
  if p.isRunning then
    (if hasReader then [Action.stopReader] else []) ++
      [Action.kill] ++
      (if hasReader then [Action.waitReader] else []) ++
      [Action.quitApp]
  else
    [Action.quitApp]

/-- The operator's answer to the close-confirmation dialog. -/
inductive CloseReply where
  | yes : CloseReply
  | no : CloseReply
  | cancel : CloseReply
deriving Repr, DecidableEq

/-- `LlamaServerGUI.closeEvent` lines 812-841 as its side effects plus
whether the close event is accepted: with a live process, Yes minimizes to
tray, No kills immediately (same pattern as `quit_application`), Cancel does
nothing. -/
def closeEvent (p : ProcStatus) (hasReader : Bool) (reply : CloseReply) :
    List Action × Bool :=
  if p.isRunning then
    match reply with
    | .yes => ([Action.hideWindow], false)
    | .no =>
      ((if hasReader then [Action.stopReader] else []) ++
        [Action.kill] ++
        (if hasReader then [Action.waitReader] else []), true)
    | .cancel => ([], false)
  else
    ([], true)

/-- Claim C9: on both exit paths taken while the server is running —
`quit_application`, and `closeEvent` answered No — the process is killed
immediately: `kill()` is issued, `terminate()` is never sent, and the
shutdown escalator (the only producer of the `StoppedGracefully` /
`StoppedForcibly` verdicts) is never started. -/
theorem quit_kills_forcefully (p : ProcStatus) (hasReader : Bool)
    (h : p.isRunning = true) :
    (Action.kill ∈ quit_application p hasReader ∧
      Action.terminate ∉ quit_application p hasReader ∧
      Action.startEscalator ∉ quit_application p hasReader) ∧
    (Action.kill ∈ (closeEvent p hasReader .no).1 ∧
      Action.terminate ∉ (closeEvent p hasReader .no).1 ∧
      Action.startEscalator ∉ (closeEvent p hasReader .no).1 ∧
      (closeEvent p hasReader .no).2 = true) := by
  cases p with
  | noProcess => cases h
  | exitedWith c => cases h
  | alive => cases hasReader <;> decide

/-- Witness for C9 at a concrete input: a live process with an output reader
attached. -/
theorem quit_kills_forcefully_witness :
    Action.kill ∈ quit_application .alive true ∧
    Action.kill ∈ (closeEvent .alive true .no).1 :=
  ⟨(quit_kills_forcefully .alive true rfl).1.1,
   (quit_kills_forcefully .alive true rfl).2.1⟩

/-- The persisted configuration: a profile map keyed by name and the
last-used profile pointer; the shape of the JSON document
`{"profiles": {...}, "last_profile": ...}`. -/
structure Config where
  profiles : List (String × LaunchSpec)
  last_profile : Option String
deriving Repr, DecidableEq

/-- Outcome of `open(...)` followed by `json.load(...)` on an existing
config file: either a parsed document, or any raised exception (unreadable
file, invalid JSON) carrying its message. -/
inductive ConfigRead where
  | parsed (c : Config) : ConfigRead
  | raised (msg : String) : ConfigRead
deriving Repr, DecidableEq

/-- `LlamaServerGUI.load_config` lines 787-796: if the file exists, try to
read and parse it, catching every exception (the error is printed and
discarded); in every failure case — file absent, unreadable, or invalid
JSON — fall through to the default record.  The function is total: no
exception propagates to the caller. -/
def load_config (fileExists : Bool) (readResult : ConfigRead) : Config :=
  if fileExists then
    match readResult with
    | .parsed c => c
    | .raised _ => { profiles := [], last_profile := none }
  else
    { profiles := [], last_profile := none }

/-- Claim C10: for an absent config file, and for an existing one whose read
or parse raises (unreadable or invalid JSON), `load_config` returns the
default record — empty profile map, no last profile — and, being a total
function, never propagates an error to the caller. -/
theorem load_config_defaults (r : ConfigRead) (msg : String) :
    load_config false r = { profiles := [], last_profile := none } ∧
    load_config true (.raised msg) = { profiles := [], last_profile := none } ∧
    (load_config false r).profiles = [] ∧
    (load_config false r).last_profile = none ∧
    (load_config true (.raised msg)).profiles = [] ∧
    (load_config true (.raised msg)).last_profile = none := by
  refine ⟨rfl, rfl, rfl, rfl, rfl, rfl⟩

end LSG
